import Mathlib

/-!
Shallow embedding of the query / aggregation / decomposition pipeline of the
climate dashboard (`src/frontend/pages/Departments.py` and
`src/frontend/pages/Station_Data.py`).

Timestamps are the `"YYYY-MM-DD"` strings stored in the `measurements` table
and are compared the way SQLite compares TEXT values (bytewise, which on these
ASCII strings is also Python's string order).  Measurement values are
rationals; a `none` value is SQL `NULL` / pandas `NaN`.  A Python function
that can raise is embedded as `Except String`; `.error` is a raised
exception.
-/

namespace CCIF

/-- A row of the `stations` table (the columns the queried pages use).
`department_id` is nullable in the store. -/
structure Station where
  station_id : String
  department_id : Option Int
deriving DecidableEq

/-- A row of the `measurements` table; `value` is nullable (a missing sensor
reading). -/
structure Measurement where
  station_id : String
  var : String
  timestamp : String
  value : Option ℚ
deriving DecidableEq

/-- The relational store the pages query (`./data/data.db`). -/
structure Store where
  stations : List Station
  measurements : List Measurement
deriving DecidableEq

/-! ### SQL text order

SQLite compares TEXT bytewise; on the ASCII `"YYYY-MM-DD"` timestamps this is
plain lexicographic order on the characters, which is also the order pandas
uses when it sorts the group keys. -/

/-- Lexicographic order on the character lists underlying strings. -/
def strLeB : List Char → List Char → Bool
  | [], _ => true
  | _ :: _, [] => false
  | x :: xs, y :: ys => if x = y then strLeB xs ys else decide (x < y)

/-- SQL `<=` on TEXT values (and Python string order): lexicographic on the
characters. -/
def sqlLe (a b : String) : Bool := strLeB a.data b.data

theorem strLeB_total (a b : List Char) : strLeB a b = true ∨ strLeB b a = true := by
  induction a generalizing b with
  | nil => exact Or.inl rfl
  | cons x xs ih =>
    cases b with
    | nil => exact Or.inr rfl
    | cons y ys =>
      by_cases hxy : x = y
      · subst hxy
        simpa [strLeB] using ih ys
      · rcases lt_or_gt_of_ne hxy with h | h
        · exact Or.inl (by simp [strLeB, hxy, h])
        · exact Or.inr (by simp [strLeB, Ne.symm hxy, h])

theorem strLeB_trans {a b c : List Char} (hab : strLeB a b = true)
    (hbc : strLeB b c = true) : strLeB a c = true := by
  induction a generalizing b c with
  | nil => rfl
  | cons x xs ih =>
    cases b with
    | nil => simp [strLeB] at hab
    | cons y ys =>
      cases c with
      | nil => simp [strLeB] at hbc
      | cons z zs =>
        by_cases hxy : x = y <;> by_cases hyz : y = z
        · subst hxy; subst hyz
          simp only [strLeB, if_pos rfl] at hab hbc ⊢
          exact ih hab hbc
        · subst hxy
          simp only [strLeB, if_pos rfl, if_neg hyz] at hbc ⊢
          exact hbc
        · subst hyz
          simp only [strLeB, if_pos rfl, if_neg hxy] at hab ⊢
          exact hab
        · simp only [strLeB, if_neg hxy, if_neg hyz, decide_eq_true_eq] at hab hbc
          have hxz : x < z := lt_trans hab hbc
          simp [strLeB, ne_of_lt hxz, hxz]

theorem strLeB_antisymm {a b : List Char} (hab : strLeB a b = true)
    (hba : strLeB b a = true) : a = b := by
  induction a generalizing b with
  | nil =>
    cases b with
    | nil => rfl
    | cons y ys => simp [strLeB] at hba
  | cons x xs ih =>
    cases b with
    | nil => simp [strLeB] at hab
    | cons y ys =>
      by_cases hxy : x = y
      · subst hxy
        simp only [strLeB, if_pos rfl] at hab hba
        exact congrArg (x :: ·) (ih hab hba)
      · simp only [strLeB, if_neg hxy, if_neg (Ne.symm hxy), decide_eq_true_eq] at hab hba
        exact absurd (lt_trans hab hba) (lt_irrefl x)

theorem sqlLe_total (a b : String) : (sqlLe a b || sqlLe b a) = true := by
  rcases strLeB_total a.data b.data with h | h <;> simp [sqlLe, h]

theorem sqlLe_trans (a b c : String) (hab : sqlLe a b = true)
    (hbc : sqlLe b c = true) : sqlLe a c = true :=
  strLeB_trans hab hbc

theorem sqlLe_antisymm {a b : String} (hab : sqlLe a b = true)
    (hba : sqlLe b a = true) : a = b := by
  cases a with
  | mk da =>
    cases b with
    | mk db => exact congrArg String.mk (strLeB_antisymm hab hba)

/-- Sorting two lists that are permutations of each other by a transitive,
total, antisymmetric comparator gives the same list. -/
theorem mergeSort_eq_of_perm {α : Type} (le : α → α → Bool)
    (htr : ∀ a b c, le a b = true → le b c = true → le a c = true)
    (hto : ∀ a b, (le a b || le b a) = true)
    (han : ∀ a b, le a b = true → le b a = true → a = b)
    {l1 l2 : List α} (h : l1.Perm l2) : l1.mergeSort le = l2.mergeSort le := by
  have s1 := List.sorted_mergeSort htr hto l1
  have s2 := List.sorted_mergeSort htr hto l2
  have hp : (l1.mergeSort le).Perm (l2.mergeSort le) :=
    (List.mergeSort_perm l1 le).trans (h.trans (List.mergeSort_perm l2 le).symm)
  exact @List.eq_of_perm_of_sorted _ _ ⟨fun a b h1 h2 => han a b h1 h2⟩ _ _ hp s1 s2

/-! ### Aggregation (`groupby("timestamp")["value"].agg(agg_method)`)

The page offers `st.radio(..., ["mean", "median"])`, so the aggregation
method is one of pandas' `"mean"` and `"median"` reducers. -/

/-- The aggregation methods the sidebar radio button offers. -/
inductive AggMethod where
  | mean
  | median
deriving DecidableEq

/-- pandas `mean` over the non-missing values of a group: `NaN` (here
`none`) on an empty group, otherwise the sum divided by the count. -/
def aggMean (l : List ℚ) : Option ℚ :=
  if l.length = 0 then none else some (l.sum / l.length)

/-- pandas `median` over the non-missing values of a group: the middle
element of the sorted values, or the average of the two middle elements when
the count is even. -/
def aggMedian (l : List ℚ) : Option ℚ :=
  let s := l.mergeSort fun a b => decide (a ≤ b)
  if s.length = 0 then none
  else if s.length % 2 = 1 then some (s.getD (s.length / 2) 0)
  else some ((s.getD (s.length / 2 - 1) 0 + s.getD (s.length / 2) 0) / 2)

/-- `Series.agg(agg_method)` for the two offered methods. -/
def applyAgg : AggMethod → List ℚ → Option ℚ
  | .mean => aggMean
  | .median => aggMedian

/-- A row of the frame `pd.read_sql` returns for the `get_time_series` query
of `Departments.py` (columns `timestamp, station_id, variable, value`). -/
structure MRow where
  timestamp : String
  station_id : String
  var : String
  value : Option ℚ
deriving DecidableEq

/-- The row set of the `get_time_series` SQL query of `Departments.py`:
`measurements` inner-joined with the stations of `department_id`, restricted
to the variable and to `timestamp BETWEEN "{min_year}-01-01" AND
"{max_year}-01-01"` (TEXT comparison, inclusive bounds). -/
def query_rows (s : Store) (department_id : Int) (v : String)
    (min_year max_year : Nat) : List MRow :=
  (s.measurements.flatMap fun m =>
    (s.stations.filter fun st =>
        st.station_id == m.station_id && st.department_id == some department_id).map
      fun _ => MRow.mk m.timestamp m.station_id m.var m.value).filter
    fun r =>
      r.var == v && sqlLe (toString min_year ++ "-01-01") r.timestamp
        && sqlLe r.timestamp (toString max_year ++ "-01-01")

/-- The non-missing values of the group of rows at timestamp `k`. -/
def valsAt (rows : List MRow) (k : String) : List ℚ :=
  ((rows.filter fun r => r.timestamp == k).map (·.value)).filterMap id

/-- `df.groupby("timestamp")["value"].agg(agg_method).reset_index()`: one row
per distinct timestamp, keys in ascending order (pandas groups with
`sort=True`), each group's non-missing values reduced by the method. -/
def groupAgg (rows : List MRow) (agg_method : AggMethod) : List (String × Option ℚ) :=
  (((rows.map (·.timestamp)).dedup).mergeSort sqlLe).map fun k =>
    (k, applyAgg agg_method (valsAt rows k))

/-- `Departments.get_time_series`: run the SQL query, then aggregate the
`value` column per timestamp. -/
def get_time_series (s : Store) (department_id : Int) (v : String)
    (min_year max_year : Nat) (agg_method : AggMethod) : List (String × Option ℚ) :=
  groupAgg (query_rows s department_id v min_year max_year) agg_method

/-- A row of the joined temperature frame
`tx.merge(tn, on="timestamp", suffixes=("_max", "_min"))`. -/
structure TRow where
  timestamp : String
  value_max : Option ℚ
  value_min : Option ℚ
deriving DecidableEq

/-- pandas `tx.merge(tn, on="timestamp", suffixes=("_max", "_min"))`: the
default inner join on the `timestamp` column. -/
def merge_on_timestamp (tx tn : List (String × Option ℚ)) : List TRow :=
  tx.flatMap fun r => ((tn.filter fun q => q.1 == r.1).map fun q => TRow.mk r.1 r.2 q.2)

/-- The joined temperature frame `construct_charts` builds in its
`"temperature"` branch. -/
def temperature_df (s : Store) (department_id : Int) (min_year max_year : Nat)
    (agg_method : AggMethod) : List TRow :=
  merge_on_timestamp
    (get_time_series s department_id "TX" min_year max_year agg_method)
    (get_time_series s department_id "TN" min_year max_year agg_method)

/-! ### Column min / max (`df[col].min()`, `df[col].max()`)

pandas skips missing values when reducing a column. -/

/-- Minimum of a list of rationals, `none` when the list is empty. -/
def listMin : List ℚ → Option ℚ
  | [] => none
  | x :: xs =>
    match listMin xs with
    | none => some x
    | some y => some (min x y)

/-- Maximum of a list of rationals, `none` when the list is empty. -/
def listMax : List ℚ → Option ℚ
  | [] => none
  | x :: xs =>
    match listMax xs with
    | none => some x
    | some y => some (max x y)

/-- `df[col].min()`: minimum over the non-missing entries of a column. -/
def colMin (l : List (Option ℚ)) : Option ℚ := listMin (l.filterMap id)

/-- `df[col].max()`: maximum over the non-missing entries of a column. -/
def colMax (l : List (Option ℚ)) : Option ℚ := listMax (l.filterMap id)

/-- What the `"temperature"` branch of `construct_charts` computes:
`min_max_scale = (df["value_min"].min(), df["value_max"].max())`. -/
def temperature_scale (df : List TRow) : Option ℚ × Option ℚ :=
  (colMin (df.map (·.value_min)), colMax (df.map (·.value_max)))

/-- What the `"precipitation"` branch computes:
`min_max_scale = (df["value"].min(), df["value"].max())`. -/
def precipitation_scale (df : List (String × Option ℚ)) : Option ℚ × Option ℚ :=
  (colMin (df.map (·.2)), colMax (df.map (·.2)))

/-! ### Seasonal decomposition (`statsmodels.tsa.seasonal.seasonal_decompose`)

Additive model, `two_sided=True`, `extrapolate_trend=0`, as the pages call
it with `period=12`. -/

/-- The three aligned component sequences of a decomposition; `none` entries
of `trend` and `resid` are the undefined edge values. -/
structure Decomposition where
  trend : List (Option ℚ)
  seasonal : List ℚ
  resid : List (Option ℚ)
deriving DecidableEq

/-- The centered moving-average filter of `seasonal_decompose`: for an even
period, `[.5] + [1]*(period-1) + [.5]`, all divided by the period; for an
odd period, `period` equal weights. -/
def maFilt (period : Nat) : List ℚ :=
  if period % 2 = 0 then
    (((1 : ℚ) / 2) :: (List.replicate (period - 1) (1 : ℚ) ++ [(1 : ℚ) / 2])).map
      fun w => w / (period : ℚ)
  else (List.replicate period (1 : ℚ)).map fun w => w / (period : ℚ)

/-- `convolution_filter(x, filt, nsides=2)`: the centered convolution of the
series with the filter, defined only where the whole window fits inside the
series (`NaN`, here `none`, on the trimmed edges). -/
def convTrend (v : List ℚ) (period : Nat) : List (Option ℚ) :=
  let filt := maFilt period
  let h := (filt.length - 1) / 2
  (List.range v.length).map fun i =>
    if h ≤ i ∧ i + (filt.length - 1 - h) < v.length then
      some (((List.range filt.length).map fun j =>
        filt.getD j 0 * v.getD (i - h + j) 0).sum)
    else none

/-- `nanmean` of the detrended values at the positions congruent to `k`
modulo the period. -/
def seasonalMeanAt (detrended : List (Option ℚ)) (period k : Nat) : ℚ :=
  let vals := (((List.range detrended.length).filter fun i => i % period == k).map
    fun i => detrended.getD i none).filterMap id
  vals.sum / (vals.length : ℚ)

/-- The computation `seasonal_decompose` performs once its input checks have
passed: centered moving-average trend, seasonal means of the detrended
series recentered to sum to zero, residual = observed − trend − seasonal. -/
def decomposeCore (v : List ℚ) (period : Nat) : Decomposition :=
  let trend := convTrend v period
  let detrended := (List.range v.length).map fun i =>
    match trend.getD i none with
    | some t => some (v.getD i 0 - t)
    | none => none
  let pa := (List.range period).map fun k => seasonalMeanAt detrended period k
  let paAdj := pa.map fun x => x - pa.sum / (period : ℚ)
  let seasonal := (List.range v.length).map fun i => paAdj.getD (i % period) 0
  let resid := (List.range v.length).map fun i =>
    match detrended.getD i none with
    | some d => some (d - seasonal.getD i 0)
    | none => none
  ⟨trend, seasonal, resid⟩

/-- `seasonal_decompose(x, period=12)`: raises `ValueError` (here `.error`)
on missing values, then `ValueError` (\"x must have 2 complete cycles\") when
the series is shorter than `2 * period`; otherwise returns the three
components. -/
def seasonal_decompose (x : List (Option ℚ)) (period : Nat) :
    Except String Decomposition :=
  if x.any fun o => o.isNone then
    .error "This function does not handle missing values"
  else if x.length < 2 * period then
    .error "x must have 2 complete cycles"
  else .ok (decomposeCore (x.filterMap id) period)

/-- The two outcomes of the seasonal-decomposition `try` block of
`construct_charts`: either the decomposition frame is rendered, or the
caught `ValueError` is answered with the message
\"Not enough data to decompose the time series.\". -/
inductive DecompOutcome where
  | rendered (df_dcom : List (Option ℚ × ℚ × Option ℚ × String))
  | insufficient_data
deriving DecidableEq

/-- The seasonal-decomposition step of `construct_charts`: call
`seasonal_decompose(df[decomposition_x], period=12)`, on success build the
frame `{trend, seasonal, residual, timestamp}`, and turn a raised
`ValueError` into the \"not enough data\" message. -/
def decomposition_step (col : List (Option ℚ)) (timestamps : List String) :
    DecompOutcome :=
  match seasonal_decompose col 12 with
  | .ok d =>
    .rendered ((List.range col.length).map fun i =>
      (d.trend.getD i none, d.seasonal.getD i 0, d.resid.getD i none,
        timestamps.getD i ""))
  | .error _ => .insufficient_data

/-- The two outcomes of the historical-chart `try` block of
`construct_charts`: `df.empty` raises a `ValueError` that is caught and
answered with \"No data available for this station.\"; otherwise the line
chart is rendered. -/
inductive HistOutcome where
  | rendered
  | no_data
deriving DecidableEq

/-- The historical-chart step of `construct_charts` on a frame with the
given rows. -/
def historical_step {α : Type} (df : List α) : HistOutcome :=
  if df.isEmpty then .no_data else .rendered

/-! ### `Departments.get_department_timerange` -/

/-- SQL `MIN` over TEXT values: `NULL` (here `none`) when no row matches. -/
def sqlMinStr (l : List String) : Option String :=
  l.foldr
    (fun x acc =>
      match acc with
      | none => some x
      | some y => some (if sqlLe x y then x else y))
    none

/-- SQL `MAX` over TEXT values: `NULL` (here `none`) when no row matches. -/
def sqlMaxStr (l : List String) : Option String :=
  l.foldr
    (fun x acc =>
      match acc with
      | none => some x
      | some y => some (if sqlLe y x then x else y))
    none

/-- The timestamps the `get_department_timerange` query aggregates over:
`measurements` inner-joined with the stations of the department. -/
def dept_timestamps (s : Store) (department_id : Int) : List String :=
  s.measurements.flatMap fun m =>
    (s.stations.filter fun st =>
        st.station_id == m.station_id && st.department_id == some department_id).map
      fun _ => m.timestamp

/-- `Departments.get_department_timerange`: `SELECT MIN(timestamp),
MAX(timestamp)` over the department's measurements, then
`int(min_time[:4])` and `int(max_time[:4])` in Python.  When the department
matches no measurement row the SQL aggregates are `NULL`, `min_time[:4]`
subscripts `None`, and the function raises `TypeError` (here `.error`); a
first-four-characters slice that is not a number raises `ValueError`. -/
def get_department_timerange (s : Store) (department_id : Int) :
    Except String (Nat × Nat) :=
  match sqlMinStr (dept_timestamps s department_id),
      sqlMaxStr (dept_timestamps s department_id) with
  | some mn, some mx =>
    match (mn.take 4).toNat?, (mx.take 4).toNat? with
    | some a, some b => .ok (a, b)
    | _, _ => .error "ValueError: invalid literal for int()"
  | _, _ => .error "TypeError: NoneType is not subscriptable"

/-! ### The SQL text `Departments.get_time_series` executes

The Python function builds its query with an f-string, so every argument is
spliced verbatim into the SQL text; nothing is passed as a bound
parameter. -/

/-- The f-string SQL text of `Departments.get_time_series`, with the four
interpolation slots filled by plain string concatenation exactly as Python
fills them. -/
def get_time_series_query_text (department_id v min_year max_year : String) :
    String :=
  "
    SELECT timestamp, measurements.station_id AS station_id, variable, value
    FROM measurements
    INNER JOIN (
        SELECT stations.station_id, stations.department_id
        FROM stations
        WHERE department_id = " ++ department_id ++ "
    ) AS departments
    ON departments.station_id = measurements.station_id
    WHERE variable = '" ++ v ++ "' AND timestamp BETWEEN \"" ++ min_year ++
    "-01-01\" AND \"" ++ max_year ++ "-01-01\"
    "

/-! ### Claim theorems -/

/-- C1: for every input series with fewer than 2×period observations (fewer
than 24 for period = 12), the decomposition step of `construct_charts`
reports the insufficient-data outcome (the "Not enough data to decompose the
time series." message): the `ValueError` raised by `seasonal_decompose` is
caught inside the step, no exception reaches the caller, and no partial
trend/seasonal/residual components are returned. -/
theorem decomposition_step_short_series_insufficient
    (col : List (Option ℚ)) (timestamps : List String) (h : col.length < 24) :
    decomposition_step col timestamps = DecompOutcome.insufficient_data := by
  unfold decomposition_step seasonal_decompose
  by_cases hm : col.any fun o => o.isNone
  · simp [hm]
  · simp [hm, h]

/-- Witness for C1 at a concrete five-point series. -/
theorem decomposition_step_short_series_insufficient_witness :
    ([some 1, some 2, some 3, some 4, some 5] : List (Option ℚ)).length < 24 ∧
      decomposition_step [some 1, some 2, some 3, some 4, some 5]
        ["2000-01-01", "2000-02-01", "2000-03-01", "2000-04-01", "2000-05-01"] =
        DecompOutcome.insufficient_data :=
  ⟨by decide, decomposition_step_short_series_insufficient _ _ (by decide)⟩

/-- The store of C2's failing input: one station, in department 75, with one
measurement; department 99 has no stations. -/
def storeNoStations : Store :=
  ⟨[⟨"S1", some 75⟩], [⟨"S1", "TX", "2000-01-15", some 5⟩]⟩

/-- C2 at the failing input (department 99, zero stations): Store Access
does return an empty table and the chart pipeline does report the
empty-result outcome, but `get_department_timerange` raises `TypeError`
(`int(None[:4])`) instead of returning, so an exception does propagate from
the time-range lookup step, against the claim. -/
theorem empty_department_timerange_raises :
    get_time_series storeNoStations 99 "TX" 2000 2020 AggMethod.mean = [] ∧
      historical_step (temperature_df storeNoStations 99 2000 2020 AggMethod.mean) =
        HistOutcome.no_data ∧
      get_department_timerange storeNoStations 99 =
        Except.error "TypeError: NoneType is not subscriptable" := by
  have h1 : get_time_series storeNoStations 99 "TX" 2000 2020 AggMethod.mean = [] := by
    rw [get_time_series, show query_rows storeNoStations 99 "TX" 2000 2020 = [] from rfl]
    simp [groupAgg]
  have h2 : get_time_series storeNoStations 99 "TN" 2000 2020 AggMethod.mean = [] := by
    rw [get_time_series, show query_rows storeNoStations 99 "TN" 2000 2020 = [] from rfl]
    simp [groupAgg]
  refine ⟨h1, ?_, rfl⟩
  rw [temperature_df, h1, h2]
  rfl

set_option maxRecDepth 10000 in
/-- C3 at the failing input: with the crafted department identifier
`75 OR 1=1`, the SQL text `get_time_series` executes contains the clause
`WHERE department_id = 75 OR 1=1`.  The identifier is spliced verbatim into
the query text by the f-string — not passed as a bound parameter — and here
it alters the structure of the query (the subquery now selects every
station). -/
theorem query_text_interpolates_injected_clause :
    ∃ p q : String,
      get_time_series_query_text "75 OR 1=1" "TN" "2000" "2020" =
        p ++ "WHERE department_id = 75 OR 1=1" ++ q := by
  refine ⟨"
    SELECT timestamp, measurements.station_id AS station_id, variable, value
    FROM measurements
    INNER JOIN (
        SELECT stations.station_id, stations.department_id
        FROM stations
        ", "
    ) AS departments
    ON departments.station_id = measurements.station_id
    WHERE variable = 'TN' AND timestamp BETWEEN \"2000-01-01\" AND \"2020-01-01\"
    ", ?_⟩
  decide

/-- C4: pandas' default merge on `timestamp` is an inner join: a timestamp
appears in the joined temperature table exactly when it appears in both the
aggregated max-temperature series and the aggregated min-temperature series;
hence the joined timestamps are a subset of each input's timestamps and
every row whose timestamp is present in only one of the two series is
dropped. -/
theorem merge_on_timestamp_inner_join (tx tn : List (String × Option ℚ))
    (t : String) :
    t ∈ (merge_on_timestamp tx tn).map (·.timestamp) ↔
      t ∈ tx.map Prod.fst ∧ t ∈ tn.map Prod.fst := by
  simp only [merge_on_timestamp, List.map_flatMap, List.mem_flatMap, List.mem_map,
    List.mem_filter, beq_iff_eq]
  constructor
  · rintro ⟨r, hr, x, ⟨⟨q, ⟨hq, hq1⟩, rfl⟩, rfl⟩⟩
    exact ⟨⟨r, hr, rfl⟩, ⟨q, hq, hq1⟩⟩
  · rintro ⟨⟨r, hr, rfl⟩, ⟨q, hq, hq1⟩⟩
    exact ⟨r, hr, TRow.mk r.1 r.2 q.2, ⟨q, ⟨hq, hq1⟩, rfl⟩, rfl⟩

/-- The timestamp column of an aggregated series is the sorted deduplication
of the input rows' timestamps. -/
theorem groupAgg_keys (rows : List MRow) (agg_method : AggMethod) :
    (groupAgg rows agg_method).map Prod.fst =
      ((rows.map (·.timestamp)).dedup).mergeSort sqlLe := by
  simp only [groupAgg, List.map_map]
  exact List.map_id _

/-- C9: for every store, department identifier, variable code, time range
and aggregation method, the table `get_time_series` returns has at most one
row per distinct timestamp: its timestamp column has no duplicates. -/
theorem get_time_series_unique_timestamps (s : Store) (department_id : Int)
    (v : String) (min_year max_year : Nat) (agg_method : AggMethod) :
    ((get_time_series s department_id v min_year max_year agg_method).map
      Prod.fst).Nodup := by
  rw [get_time_series, groupAgg_keys]
  exact ((List.mergeSort_perm _ sqlLe).nodup_iff).mpr (List.nodup_dedup _)

/-- C10: for every store — however the store orders its rows — the table
`get_time_series` returns is sorted in ascending timestamp order (pandas
groups with `sort=True`), so downstream consumers, the seasonal
decomposition included, receive a chronologically ordered series. -/
theorem get_time_series_sorted_timestamps (s : Store) (department_id : Int)
    (v : String) (min_year max_year : Nat) (agg_method : AggMethod) :
    List.Sorted (fun a b : String => sqlLe a b = true)
      ((get_time_series s department_id v min_year max_year agg_method).map
        Prod.fst) := by
  rw [get_time_series, groupAgg_keys]
  exact List.sorted_mergeSort (fun a b c => sqlLe_trans a b c) sqlLe_total _

/-- Reading position `i < n` of a map over `List.range n`. -/
theorem getD_map_range {α : Type} {n i : Nat} (f : Nat → α) (d : α) (h : i < n) :
    ((List.range n).map f).getD i d = f i := by
  rw [List.getD_eq_getElem?_getD, List.getElem?_map, List.getElem?_range h]
  rfl

/-- The moving-average filter for period 12 has 13 weights. -/
theorem maFilt_twelve_length : (maFilt 12).length = 13 := by
  simp [maFilt]

/-- C6: for a fully observed series of exactly period×3 = 36 points,
`seasonal_decompose` succeeds and the trend component it returns is missing
at exactly the first ⌊period/2⌋ = 6 and last 6 positions and defined
everywhere else; the edge values are trimmed `NaN`s of the centered moving
average, not backfilled or interpolated. -/
theorem trend_edge_missing (v : List ℚ) (h : v.length = 36) :
    seasonal_decompose (v.map some) 12 = Except.ok (decomposeCore v 12) ∧
      (decomposeCore v 12).trend.length = 36 ∧
      ∀ i, i < 36 →
        ((decomposeCore v 12).trend.getD i none = none ↔ (i < 6 ∨ 30 ≤ i)) := by
  have htr : (decomposeCore v 12).trend = convTrend v 12 := by
    simp [decomposeCore]
  refine ⟨?_, ?_, ?_⟩
  · have hnone : (v.map some).any (fun o => o.isNone) = false := by simp
    have hfm : (v.map some).filterMap id = v := by
      rw [List.filterMap_map]
      simp
    rw [seasonal_decompose, hnone]
    simp [h, hfm]
  · rw [htr, convTrend]
    simp [h]
  · intro i hi
    rw [htr, convTrend]
    simp only [maFilt_twelve_length]
    rw [getD_map_range _ _ (h ▸ hi)]
    have h6 : (13 - 1) / 2 = 6 := by norm_num
    rw [h6, h]
    by_cases hc : 6 ≤ i ∧ i + (13 - 1 - 6) < 36
    · rw [if_pos hc]
      simp only [reduceCtorEq, false_iff]
      omega
    · rw [if_neg hc]
      simp only [true_iff]
      omega

/-- Witness for C6 at the constant 36-point series. -/
theorem trend_edge_missing_witness :
    (List.replicate 36 (7 : ℚ)).length = 36 ∧
      (seasonal_decompose ((List.replicate 36 (7 : ℚ)).map some) 12 =
          Except.ok (decomposeCore (List.replicate 36 (7 : ℚ)) 12) ∧
        (decomposeCore (List.replicate 36 (7 : ℚ)) 12).trend.length = 36 ∧
        ∀ i, i < 36 →
          ((decomposeCore (List.replicate 36 (7 : ℚ)) 12).trend.getD i none = none ↔
            (i < 6 ∨ 30 ≤ i))) :=
  ⟨by decide, trend_edge_missing _ (by decide)⟩

/-- Aggregating a permuted list of group values gives the same result: the
mean from the (permutation-invariant) sum and count, the median from the
(permutation-invariant) sorted values. -/
theorem applyAgg_perm (agg_method : AggMethod) {l1 l2 : List ℚ} (h : l1.Perm l2) :
    applyAgg agg_method l1 = applyAgg agg_method l2 := by
  cases agg_method with
  | mean =>
    simp only [applyAgg, aggMean, h.length_eq, h.sum_eq]
  | median =>
    have hs : l1.mergeSort (fun a b => decide (a ≤ b)) =
        l2.mergeSort (fun a b => decide (a ≤ b)) := by
      refine mergeSort_eq_of_perm _ ?_ ?_ ?_ h
      · intro a b c hab hbc
        simp only [decide_eq_true_eq] at hab hbc ⊢
        exact le_trans hab hbc
      · intro a b
        rcases le_total a b with hab | hba
        · simp [hab]
        · simp [hba]
      · intro a b hab hba
        simp only [decide_eq_true_eq] at hab hba
        exact le_antisymm hab hba
    simp only [applyAgg, aggMedian, hs]

/-- C8: the grouped aggregation of `get_time_series` is deterministic and
order-independent — for every input row table and every permutation of its
rows it produces the same aggregated output table. -/
theorem groupAgg_perm_invariant (r1 r2 : List MRow) (agg_method : AggMethod)
    (h : r1.Perm r2) : groupAgg r1 agg_method = groupAgg r2 agg_method := by
  have hkeys : ((r1.map (·.timestamp)).dedup).mergeSort sqlLe =
      ((r2.map (·.timestamp)).dedup).mergeSort sqlLe :=
    mergeSort_eq_of_perm sqlLe sqlLe_trans sqlLe_total
      (fun a b hab hba => sqlLe_antisymm hab hba) ((h.map _).dedup)
  rw [groupAgg, groupAgg, hkeys]
  refine List.map_congr_left fun k _ => ?_
  have hvals : (valsAt r1 k).Perm (valsAt r2 k) := by
    unfold valsAt
    exact ((h.filter _).map _).filterMap _
  exact congrArg (k, ·) (applyAgg_perm agg_method hvals)

/-- Witness for C8 at a concrete two-row table and its swap. -/
theorem groupAgg_perm_invariant_witness :
    (([⟨"2000-01-15", "S1", "TX", some 5⟩, ⟨"2000-02-15", "S1", "TX", some 3⟩] :
        List MRow).Perm
      [⟨"2000-02-15", "S1", "TX", some 3⟩, ⟨"2000-01-15", "S1", "TX", some 5⟩]) ∧
      groupAgg [⟨"2000-01-15", "S1", "TX", some 5⟩, ⟨"2000-02-15", "S1", "TX", some 3⟩]
          AggMethod.mean =
        groupAgg [⟨"2000-02-15", "S1", "TX", some 3⟩, ⟨"2000-01-15", "S1", "TX", some 5⟩]
          AggMethod.mean :=
  ⟨by decide, groupAgg_perm_invariant _ _ AggMethod.mean (by decide)⟩

/-! ### Helper lemmas about list minima, maxima, means and medians -/

/-- Combination of the minima of two list pieces. -/
def optMin : Option ℚ → Option ℚ → Option ℚ
  | none, o => o
  | some x, none => some x
  | some x, some y => some (min x y)

/-- Combination of the maxima of two list pieces. -/
def optMax : Option ℚ → Option ℚ → Option ℚ
  | none, o => o
  | some x, none => some x
  | some x, some y => some (max x y)

theorem listMin_none_iff (l : List ℚ) : listMin l = none ↔ l = [] := by
  cases l with
  | nil => simp [listMin]
  | cons x xs =>
    rw [listMin]
    cases hx : listMin xs <;> simp

theorem listMax_none_iff (l : List ℚ) : listMax l = none ↔ l = [] := by
  cases l with
  | nil => simp [listMax]
  | cons x xs =>
    rw [listMax]
    cases hx : listMax xs <;> simp

theorem listMin_append (a b : List ℚ) :
    listMin (a ++ b) = optMin (listMin a) (listMin b) := by
  induction a with
  | nil => cases hb : listMin b <;> simp [listMin, optMin, hb]
  | cons x xs ih =>
    rw [List.cons_append, listMin, ih, listMin]
    cases hx : listMin xs <;> cases hb : listMin b <;>
      simp [optMin, min_assoc]

theorem listMax_append (a b : List ℚ) :
    listMax (a ++ b) = optMax (listMax a) (listMax b) := by
  induction a with
  | nil => cases hb : listMax b <;> simp [listMax, optMax, hb]
  | cons x xs ih =>
    rw [List.cons_append, listMax, ih, listMax]
    cases hx : listMax xs <;> cases hb : listMax b <;>
      simp [optMax, max_assoc]

theorem listMin_mem {l : List ℚ} {m : ℚ} (h : listMin l = some m) : m ∈ l := by
  induction l generalizing m with
  | nil => cases h
  | cons x xs ih =>
    rw [listMin] at h
    cases hx : listMin xs with
    | none =>
      rw [hx] at h
      injection h with h
      subst h
      exact List.mem_cons_self x xs
    | some y =>
      rw [hx] at h
      injection h with h
      subst h
      rcases min_choice x y with hmin | hmin <;> rw [hmin]
      · exact List.mem_cons_self x xs
      · exact List.mem_cons_of_mem x (ih hx)

theorem listMax_mem {l : List ℚ} {m : ℚ} (h : listMax l = some m) : m ∈ l := by
  induction l generalizing m with
  | nil => cases h
  | cons x xs ih =>
    rw [listMax] at h
    cases hx : listMax xs with
    | none =>
      rw [hx] at h
      injection h with h
      subst h
      exact List.mem_cons_self x xs
    | some y =>
      rw [hx] at h
      injection h with h
      subst h
      rcases max_choice x y with hmax | hmax <;> rw [hmax]
      · exact List.mem_cons_self x xs
      · exact List.mem_cons_of_mem x (ih hx)

theorem listMin_le {l : List ℚ} {m : ℚ} (h : listMin l = some m) :
    ∀ x ∈ l, m ≤ x := by
  induction l generalizing m with
  | nil => cases h
  | cons x xs ih =>
    intro z hz
    rw [listMin] at h
    cases hx : listMin xs with
    | none =>
      rw [hx] at h
      injection h with h
      subst h
      rw [listMin_none_iff] at hx
      subst hx
      rcases List.mem_singleton.mp hz with rfl
      exact le_refl z
    | some y =>
      rw [hx] at h
      injection h with h
      subst h
      rcases List.mem_cons.mp hz with hzx | hzs
      · rw [hzx]
        exact min_le_left x y
      · exact le_trans (min_le_right x y) (ih hx z hzs)

theorem le_listMax {l : List ℚ} {m : ℚ} (h : listMax l = some m) :
    ∀ x ∈ l, x ≤ m := by
  induction l generalizing m with
  | nil => cases h
  | cons x xs ih =>
    intro z hz
    rw [listMax] at h
    cases hx : listMax xs with
    | none =>
      rw [hx] at h
      injection h with h
      subst h
      rw [listMax_none_iff] at hx
      subst hx
      rcases List.mem_singleton.mp hz with rfl
      exact le_refl z
    | some y =>
      rw [hx] at h
      injection h with h
      subst h
      rcases List.mem_cons.mp hz with hzx | hzs
      · rw [hzx]
        exact le_max_left x y
      · exact le_trans (ih hx z hzs) (le_max_right x y)

/-- A nonempty group's mean is at most any upper bound of the group. -/
theorem aggMean_le {l : List ℚ} {c a : ℚ} (hl : ∀ x ∈ l, x ≤ c)
    (ha : aggMean l = some a) : a ≤ c := by
  rw [aggMean] at ha
  split at ha
  · cases ha
  · rename_i hlen
    injection ha with ha
    subst ha
    have hpos : 0 < (l.length : ℚ) := by
      exact_mod_cast Nat.pos_of_ne_zero hlen
    rw [div_le_iff₀ hpos]
    calc l.sum ≤ l.length • c := List.sum_le_card_nsmul l c hl
      _ = c * l.length := by rw [nsmul_eq_mul]; ring

/-- A nonempty group's mean is at least any lower bound of the group. -/
theorem le_aggMean {l : List ℚ} {c a : ℚ} (hl : ∀ x ∈ l, c ≤ x)
    (ha : aggMean l = some a) : c ≤ a := by
  rw [aggMean] at ha
  split at ha
  · cases ha
  · rename_i hlen
    injection ha with ha
    subst ha
    have hpos : 0 < (l.length : ℚ) := by
      exact_mod_cast Nat.pos_of_ne_zero hlen
    rw [le_div_iff₀ hpos]
    calc c * l.length = l.length • c := by rw [nsmul_eq_mul]; ring
      _ ≤ l.sum := List.card_nsmul_le_sum l c hl

/-- A valid positional read of a list is one of its elements. -/
theorem getD_mem_of_lt {α : Type} {l : List α} {i : Nat} (d : α)
    (h : i < l.length) : l.getD i d ∈ l := by
  rw [List.getD_eq_getElem l d h]
  exact List.getElem_mem h

/-- A nonempty group's median is at most any upper bound of the group. -/
theorem aggMedian_le {l : List ℚ} {c a : ℚ} (hl : ∀ x ∈ l, x ≤ c)
    (ha : aggMedian l = some a) : a ≤ c := by
  simp only [aggMedian] at ha
  have hmem : ∀ x ∈ l.mergeSort (fun p q => decide (p ≤ q)), x ≤ c :=
    fun x hx => hl x ((List.mergeSort_perm l _).subset hx)
  split at ha
  · cases ha
  · rename_i hlen
    split at ha
    · injection ha with ha
      subst ha
      exact hmem _ (getD_mem_of_lt 0 (by omega))
    · injection ha with ha
      subst ha
      have h1 := hmem _ (getD_mem_of_lt (l := l.mergeSort fun p q => decide (p ≤ q)) 0
        (show (l.mergeSort fun p q => decide (p ≤ q)).length / 2 - 1 <
          (l.mergeSort fun p q => decide (p ≤ q)).length by omega))
      have h2 := hmem _ (getD_mem_of_lt (l := l.mergeSort fun p q => decide (p ≤ q)) 0
        (show (l.mergeSort fun p q => decide (p ≤ q)).length / 2 <
          (l.mergeSort fun p q => decide (p ≤ q)).length by omega))
      linarith

/-- A nonempty group's median is at least any lower bound of the group. -/
theorem le_aggMedian {l : List ℚ} {c a : ℚ} (hl : ∀ x ∈ l, c ≤ x)
    (ha : aggMedian l = some a) : c ≤ a := by
  simp only [aggMedian] at ha
  have hmem : ∀ x ∈ l.mergeSort (fun p q => decide (p ≤ q)), c ≤ x :=
    fun x hx => hl x ((List.mergeSort_perm l _).subset hx)
  split at ha
  · cases ha
  · rename_i hlen
    split at ha
    · injection ha with ha
      subst ha
      exact hmem _ (getD_mem_of_lt 0 (by omega))
    · injection ha with ha
      subst ha
      have h1 := hmem _ (getD_mem_of_lt (l := l.mergeSort fun p q => decide (p ≤ q)) 0
        (show (l.mergeSort fun p q => decide (p ≤ q)).length / 2 - 1 <
          (l.mergeSort fun p q => decide (p ≤ q)).length by omega))
      have h2 := hmem _ (getD_mem_of_lt (l := l.mergeSort fun p q => decide (p ≤ q)) 0
        (show (l.mergeSort fun p q => decide (p ≤ q)).length / 2 <
          (l.mergeSort fun p q => decide (p ≤ q)).length by omega))
      linarith

/-- Either offered aggregation of a group is at most any upper bound of the
group's values. -/
theorem applyAgg_le {agg_method : AggMethod} {l : List ℚ} {c a : ℚ}
    (hl : ∀ x ∈ l, x ≤ c) (ha : applyAgg agg_method l = some a) : a ≤ c := by
  cases agg_method with
  | mean => exact aggMean_le hl ha
  | median => exact aggMedian_le hl ha

/-- Either offered aggregation of a group is at least any lower bound of the
group's values. -/
theorem le_applyAgg {agg_method : AggMethod} {l : List ℚ} {c a : ℚ}
    (hl : ∀ x ∈ l, c ≤ x) (ha : applyAgg agg_method l = some a) : c ≤ a := by
  cases agg_method with
  | mean => exact le_aggMean hl ha
  | median => exact le_aggMedian hl ha

/-- An aggregated row's value is the aggregation of its timestamp's group. -/
theorem snd_of_mem_groupAgg {rows : List MRow} {agg_method : AggMethod}
    {p : String × Option ℚ} (hp : p ∈ groupAgg rows agg_method) :
    p.2 = applyAgg agg_method (valsAt rows p.1) := by
  rw [groupAgg] at hp
  obtain ⟨k, _, he⟩ := List.mem_map.mp hp
  rw [← he]

/-- C5 amended: whenever every min-temperature (TN) value at a timestamp is
at most every max-temperature (TX) value at that same timestamp among the
queried rows, every row of the joined temperature table with both aggregates
defined satisfies `value_min ≤ value_max` — for the mean and for the median
aggregation alike.  (The code itself does not enforce the premise; see the
counterexample.) -/
theorem temperature_min_le_max (s : Store) (department_id : Int)
    (min_year max_year : Nat) (agg_method : AggMethod)
    (hle : ∀ t a b,
      a ∈ valsAt (query_rows s department_id "TN" min_year max_year) t →
      b ∈ valsAt (query_rows s department_id "TX" min_year max_year) t → a ≤ b) :
    ∀ r ∈ temperature_df s department_id min_year max_year agg_method,
      ∀ a b, r.value_min = some a → r.value_max = some b → a ≤ b := by
  intro r hr a b hmin hmax
  rw [temperature_df, merge_on_timestamp] at hr
  obtain ⟨p, hp, hx⟩ := List.mem_flatMap.mp hr
  obtain ⟨q, hqf, hq⟩ := List.mem_map.mp hx
  obtain ⟨hqtn, hqeq⟩ := List.mem_filter.mp hqf
  have hteq : q.1 = p.1 := by exact beq_iff_eq.mp hqeq
  subst hq
  rw [get_time_series] at hp hqtn
  have hpv : p.2 = applyAgg agg_method
      (valsAt (query_rows s department_id "TX" min_year max_year) p.1) :=
    snd_of_mem_groupAgg hp
  have hqv : q.2 = applyAgg agg_method
      (valsAt (query_rows s department_id "TN" min_year max_year) q.1) :=
    snd_of_mem_groupAgg hqtn
  simp only [TRow.mk] at hmin hmax
  rw [hqv, hteq] at hmin
  rw [hpv] at hmax
  have hstep : ∀ y ∈ valsAt (query_rows s department_id "TX" min_year max_year) p.1,
      a ≤ y := fun y hy =>
    applyAgg_le (fun x hx => hle p.1 x y hx hy) hmin
  exact le_applyAgg hstep hmax

/-- The store of C5's witness: one station in department 75, one TN and one
TX reading at the same timestamp, TN below TX. -/
def storeOrdered : Store :=
  ⟨[⟨"S1", some 75⟩],
   [⟨"S1", "TN", "2000-01-15", some 5⟩, ⟨"S1", "TX", "2000-01-15", some 10⟩]⟩

/-- Witness for C5 at `storeOrdered`. -/
theorem temperature_min_le_max_witness :
    (∀ t a b,
      a ∈ valsAt (query_rows storeOrdered 75 "TN" 2000 2020) t →
      b ∈ valsAt (query_rows storeOrdered 75 "TX" 2000 2020) t → a ≤ b) ∧
      ∀ r ∈ temperature_df storeOrdered 75 2000 2020 AggMethod.mean,
        ∀ a b, r.value_min = some a → r.value_max = some b → a ≤ b := by
  have hle : ∀ t a b,
      a ∈ valsAt (query_rows storeOrdered 75 "TN" 2000 2020) t →
      b ∈ valsAt (query_rows storeOrdered 75 "TX" 2000 2020) t → a ≤ b := by
    intro t a b ha hb
    rw [show query_rows storeOrdered 75 "TN" 2000 2020 =
      [⟨"2000-01-15", "S1", "TN", some 5⟩] from rfl] at ha
    rw [show query_rows storeOrdered 75 "TX" 2000 2020 =
      [⟨"2000-01-15", "S1", "TX", some 10⟩] from rfl] at hb
    by_cases ht : ("2000-01-15" : String) = t
    · subst ht
      simp [valsAt] at ha hb
      subst ha
      subst hb
      norm_num
    · have hbeq : (("2000-01-15" : String) == t) = false :=
        beq_eq_false_iff_ne.mpr ht
      simp [valsAt, List.filter_cons, hbeq] at ha
  exact ⟨hle, temperature_min_le_max storeOrdered 75 2000 2020 AggMethod.mean hle⟩

/-- The store of the C5 and C7 counterexamples: the single TN reading (10)
exceeds the single TX reading (5) at the same timestamp, which nothing in
the code rules out or repairs. -/
def storeInverted : Store :=
  ⟨[⟨"S1", some 75⟩],
   [⟨"S1", "TN", "2000-01-15", some 10⟩, ⟨"S1", "TX", "2000-01-15", some 5⟩]⟩

/-- Counterexample to C5 as stated: for department 75 and time range
2000–2020 over `storeInverted`, the joined table's single row has
`value_min = 10 > 5 = value_max`. -/
theorem temperature_min_le_max_cex :
    ¬ ∀ r ∈ temperature_df storeInverted 75 2000 2020 AggMethod.mean,
        ∀ a b, r.value_min = some a → r.value_max = some b → a ≤ b := by
  intro hall
  have hdf : temperature_df storeInverted 75 2000 2020 AggMethod.mean =
      [⟨"2000-01-15", some 5, some 10⟩] := by
    rw [temperature_df, get_time_series, get_time_series,
      show query_rows storeInverted 75 "TX" 2000 2020 =
        [⟨"2000-01-15", "S1", "TX", some 5⟩] from rfl,
      show query_rows storeInverted 75 "TN" 2000 2020 =
        [⟨"2000-01-15", "S1", "TN", some 10⟩] from rfl]
    rw [groupAgg, groupAgg]
    simp [valsAt, applyAgg, aggMean, merge_on_timestamp]
  rw [hdf] at hall
  have h10 := hall _ (List.mem_singleton.mpr rfl) 10 5 rfl rfl
  norm_num at h10

/-- A concrete well-ordered joined table for C7's witness. -/
def dfOrdered : List TRow := [⟨"2000-01-15", some 10, some 5⟩]

/-- A concrete inverted joined table for C7's counterexample (`value_max`
below `value_min`, as the pipeline produces from `storeInverted`). -/
def dfInverted : List TRow := [⟨"2000-01-15", some 5, some 10⟩]

/-- C7 amended: on every non-empty joined temperature table the computed
scale tuple is `(min of the value_min column, max of the value_max column)`;
when every row has both values defined with `value_min ≤ value_max`, that
tuple equals the minimum and maximum over both value columns together, i.e.
it spans the full observed range of the plotted data. -/
theorem temperature_scale_full_range (df : List TRow) (hne : df ≠ [])
    (hrow : ∀ r ∈ df, ∃ a b, r.value_min = some a ∧ r.value_max = some b ∧ a ≤ b) :
    temperature_scale df =
      (colMin (df.map (·.value_min) ++ df.map (·.value_max)),
       colMax (df.map (·.value_min) ++ df.map (·.value_max))) := by
  obtain ⟨r0, hr0⟩ : ∃ r, r ∈ df := by
    cases df with
    | nil => exact absurd rfl hne
    | cons a l => exact ⟨a, List.mem_cons_self a l⟩
  obtain ⟨a0, b0, ha0, hb0, _⟩ := hrow r0 hr0
  have ha0m : a0 ∈ (df.map (·.value_min)).filterMap id :=
    List.mem_filterMap.mpr ⟨some a0, List.mem_map.mpr ⟨r0, hr0, ha0⟩, rfl⟩
  have hb0m : b0 ∈ (df.map (·.value_max)).filterMap id :=
    List.mem_filterMap.mpr ⟨some b0, List.mem_map.mpr ⟨r0, hr0, hb0⟩, rfl⟩
  obtain ⟨m, hm⟩ : ∃ m, listMin ((df.map (·.value_min)).filterMap id) = some m := by
    cases hmv : listMin ((df.map (·.value_min)).filterMap id) with
    | none =>
      rw [listMin_none_iff] at hmv
      rw [hmv] at ha0m
      cases ha0m
    | some m => exact ⟨m, rfl⟩
  obtain ⟨M, hM⟩ : ∃ M, listMax ((df.map (·.value_max)).filterMap id) = some M := by
    cases hMv : listMax ((df.map (·.value_max)).filterMap id) with
    | none =>
      rw [listMax_none_iff] at hMv
      rw [hMv] at hb0m
      cases hb0m
    | some M => exact ⟨M, rfl⟩
  obtain ⟨mX, hmX⟩ : ∃ mX, listMin ((df.map (·.value_max)).filterMap id) = some mX := by
    cases hv : listMin ((df.map (·.value_max)).filterMap id) with
    | none =>
      rw [listMin_none_iff] at hv
      rw [hv] at hb0m
      cases hb0m
    | some mX => exact ⟨mX, rfl⟩
  obtain ⟨MN, hMN⟩ : ∃ MN, listMax ((df.map (·.value_min)).filterMap id) = some MN := by
    cases hv : listMax ((df.map (·.value_min)).filterMap id) with
    | none =>
      rw [listMax_none_iff] at hv
      rw [hv] at ha0m
      cases ha0m
    | some MN => exact ⟨MN, rfl⟩
  have h1 : m ≤ mX := by
    obtain ⟨o, ho, hoeq⟩ := List.mem_filterMap.mp (listMin_mem hmX)
    obtain ⟨r, hr, hro⟩ := List.mem_map.mp ho
    obtain ⟨a, b, hva, hvb, hab⟩ := hrow r hr
    have hbmX : b = mX := by
      rw [hvb] at hro
      rw [← hro] at hoeq
      simpa using hoeq
    have ham : a ∈ (df.map (·.value_min)).filterMap id :=
      List.mem_filterMap.mpr ⟨some a, List.mem_map.mpr ⟨r, hr, hva⟩, rfl⟩
    calc m ≤ a := listMin_le hm a ham
      _ ≤ b := hab
      _ = mX := hbmX
  have h2 : MN ≤ M := by
    obtain ⟨o, ho, hoeq⟩ := List.mem_filterMap.mp (listMax_mem hMN)
    obtain ⟨r, hr, hro⟩ := List.mem_map.mp ho
    obtain ⟨a, b, hva, hvb, hab⟩ := hrow r hr
    have haMN : a = MN := by
      rw [hva] at hro
      rw [← hro] at hoeq
      simpa using hoeq
    have hbm : b ∈ (df.map (·.value_max)).filterMap id :=
      List.mem_filterMap.mpr ⟨some b, List.mem_map.mpr ⟨r, hr, hvb⟩, rfl⟩
    calc MN = a := haMN.symm
      _ ≤ b := hab
      _ ≤ M := le_listMax hM b hbm
  rw [temperature_scale, colMin, colMax, colMin, colMax, List.filterMap_append,
    listMin_append, listMax_append, hm, hM, hmX, hMN]
  rw [optMin, optMax]
  rw [min_eq_left h1, max_eq_right h2]

/-- Witness for C7 at the one-row table `dfOrdered`. -/
theorem temperature_scale_full_range_witness :
    (dfOrdered ≠ [] ∧
      ∀ r ∈ dfOrdered,
        ∃ a b, r.value_min = some a ∧ r.value_max = some b ∧ a ≤ b) ∧
      temperature_scale dfOrdered =
        (colMin (dfOrdered.map (·.value_min) ++ dfOrdered.map (·.value_max)),
         colMax (dfOrdered.map (·.value_min) ++ dfOrdered.map (·.value_max))) := by
  have h1 : dfOrdered ≠ [] := by simp [dfOrdered]
  have h2 : ∀ r ∈ dfOrdered,
      ∃ a b, r.value_min = some a ∧ r.value_max = some b ∧ a ≤ b := by
    intro r hr
    rw [dfOrdered, List.mem_singleton] at hr
    subst hr
    exact ⟨5, 10, rfl, rfl, by norm_num⟩
  exact ⟨⟨h1, h2⟩, temperature_scale_full_range _ h1 h2⟩

/-- Counterexample to C7 as stated: on the inverted one-row table the code's
scale tuple is `(10, 5)` while the minimum and maximum over both value
columns are `5` and `10` — the tuple does not span the observed range. -/
theorem temperature_scale_not_full_range :
    temperature_scale dfInverted ≠
      (colMin (dfInverted.map (·.value_min) ++ dfInverted.map (·.value_max)),
       colMax (dfInverted.map (·.value_min) ++ dfInverted.map (·.value_max))) := by
  intro h
  rw [show temperature_scale dfInverted = (some 10, some 5) from rfl] at h
  have h2 : colMin (dfInverted.map (·.value_min) ++ dfInverted.map (·.value_max)) =
      some 5 := by
    simp [dfInverted, colMin, listMin]
    norm_num
  rw [h2] at h
  have h3 := congrArg Prod.fst h
  simp at h3

end CCIF
